import Mathlib

/-!
Verification development for the Chestia recipe platform.

The repository contains the Next.js frontend (`chestia-web`) together with
the project documentation of the Python backend (the resolution pipeline).
Frontend components are embedded directly from their TypeScript sources.
The backend components (IngredientValidator, CacheResolver, ReviewGate,
ResolutionOrchestrator) are not part of the checked-in sources, so they are
modelled from the specification text, as marked on each definition.
-/

set_option maxRecDepth 4096

namespace Chestia

/-! ## Shared data model -/

/-- Difficulty levels of a recipe request (`easy`, `intermediate`, `hard`). -/
inductive Difficulty where
  | easy
  | intermediate
  | hard
deriving DecidableEq, Repr

/-- Supported interface languages: English and Turkish. -/
inductive Lang where
  | en
  | tr
deriving DecidableEq, Repr

/-- Error taxonomy of the resolution pipeline (spec section 7). -/
inductive ErrorKind where
  | validationError
  | searchError
  | generationError
  | hallucinationError
  | exhaustedRetries
  | persistenceError
deriving DecidableEq, Repr

/-- A structured recipe: name, ordered ingredients, ordered steps and a
string-to-string metadata map (spec section 3). -/
structure Recipe where
  name : String
  ingredients : List String
  steps : List String
  metadata : List (String × String)
deriving DecidableEq, Repr

/-! ## String utilities

Executable character-list models of the string primitives the sources use
(`trim`, `toLowerCase`, `split`, `startsWith`, `endsWith`, global
`replace`).  They are defined on character lists so that every definition
in this file evaluates by kernel reduction. -/

/-- The apostrophe character, referred to by code point. -/
def apostropheChar : Char := Char.ofNat 39

/-- The apostrophe as a one-character string. -/
def apostrophe : String := apostropheChar.toString

/-- Whitespace characters trimmed by `trim` (space, tab, newline, carriage
return). -/
def isWsChar (c : Char) : Bool :=
  c == ' ' || c == '\t' || c == '\n' || c == '\r'

/-- `trim`: remove leading and trailing whitespace. -/
def trimString (s : String) : String :=
  String.mk (((s.toList.dropWhile isWsChar).reverse.dropWhile isWsChar).reverse)

/-- `toLowerCase`: character-wise lower casing. -/
def toLowerString (s : String) : String :=
  String.mk (s.toList.map Char.toLower)

/-- Whether the first list is a leading segment of the second. -/
def leadsChars : List Char → List Char → Bool
  | [], _ => true
  | _ :: _, [] => false
  | p :: ps, c :: cs => p == c && leadsChars ps cs

/-- `startsWith` on strings. -/
def startsWithString (s pat : String) : Bool :=
  leadsChars pat.toList s.toList

/-- `endsWith` on strings. -/
def endsWithString (s pat : String) : Bool :=
  leadsChars pat.toList.reverse s.toList.reverse

/-- `includes`/`contains` for a single character. -/
def containsChar (s : String) (c : Char) : Bool := s.toList.contains c

/-- `split` by a separator character (JavaScript semantics: `"" ↦ [""]`,
a separator at either end produces an empty piece). -/
def splitChar (sep : Char) : List Char → List (List Char)
  | [] => [[]]
  | c :: rest =>
    let r := splitChar sep rest
    if c == sep then [] :: r
    else
      match r with
      | h :: t => (c :: h) :: t
      | [] => [[c]]

/-- `split` on strings. -/
def splitOnString (s : String) (sep : Char) : List String :=
  (splitChar sep s.toList).map String.mk

/-- Replace every (non-overlapping, left-to-right) occurrence of `pat` by
`rep` — the behaviour of a global-regex `replace`.  The fuel is the input
length. -/
def replaceAllAux (pat rep : List Char) : Nat → List Char → List Char
  | _, [] => []
  | 0, cs => cs
  | Nat.succ f, c :: cs =>
    if !pat.isEmpty && leadsChars pat (c :: cs) then
      rep ++ replaceAllAux pat rep f (cs.drop (pat.length - 1))
    else c :: replaceAllAux pat rep f cs

/-- Global `replace` on strings. -/
def replaceAllString (s pat rep : String) : String :=
  String.mk (replaceAllAux pat.toList rep.toList s.toList.length s.toList)

/-- Ordering of strings by code points (used by canonical sorting). -/
def charListLe : List Char → List Char → Bool
  | [], _ => true
  | _ :: _, [] => false
  | c :: cs, d :: ds =>
    if c.toNat < d.toNat then true
    else if d.toNat < c.toNat then false
    else charListLe cs ds

/-- `≤` on strings by code points. -/
def stringLe (a b : String) : Bool := charListLe a.toList b.toList

/-! ## UI bridge state (from `src/unnamed/part_002`)

The generate page defines the conversational state exchanged with the
backend agent:

    interface AgentState \x7b
        ingredients: string[];
        original_ingredients: string[];
        difficulty: string;
        lang: string;
        error: string;
    \x7d
-/

/-- The bridge-side conversational state, embedded field for field from the
`AgentState` interface in `src/unnamed/part_002` lines 12–18. -/
structure AgentState where
  ingredients : List String
  original_ingredients : List String
  difficulty : String
  lang : String
  error : String
deriving DecidableEq, Repr

/-- The field names of the TypeScript `AgentState` interface, in source
order (`src/unnamed/part_002` lines 12–18). -/
def agentStateFields : List String :=
  ["ingredients", "original_ingredients", "difficulty", "lang", "error"]

/-- Modelled from the spec: the externally-visible `ResolutionSession`
fields that section 6 says the UI-bridge state object mirrors.  The backend
session type itself is not among the checked-in sources. -/
def sessionMirrorFields : List String :=
  ["ingredients", "difficulty", "lang", "recipe", "extra_ingredients",
   "extra_count", "error", "iteration_count"]

/-- The initial agent state passed to `useCoAgent` in
`src/unnamed/part_002` lines 27–31: empty ingredients, empty difficulty,
`lang` defaulted to `"en"`.  The fields the initializer leaves out are
embedded as empty values. -/
def initialAgentState : AgentState :=
  { ingredients := [], original_ingredients := [], difficulty := ""
    lang := "en", error := "" }

/-- The `useEffect` body of `src/unnamed/part_002` lines 35–39: whenever the
agent-state language differs from the UI language it is overwritten with
the UI language; nothing else is written. -/
def syncLang (st : AgentState) (language : String) : AgentState :=
  if st.lang ≠ language then { st with lang := language } else st

/-! ## UI bridge route configuration

Two versions of `app/api/copilotkit/route.ts` are present in the sources:
the one under `chestia-web` uses `ExperimentalEmptyAdapter`, while the
variant in `src/unnamed/part_003` instantiates
`GoogleGenerativeAIAdapter(\x7bmodel: "gemini-2.0-flash"\x7d)`.  Both register the
single agent `chestia_recipe_agent` backed by the LangGraph HTTP endpoint.
-/

/-- The kind of CopilotKit service adapter a route file instantiates. -/
inductive AdapterKind where
  | emptyAdapter
  | googleGenerativeAI (model : String)
deriving DecidableEq, Repr

/-- The bridge-relevant configuration of one `route.ts` file: its service
adapter and the registered agent (name and default backend URL). -/
structure BridgeRouteConfig where
  serviceAdapter : AdapterKind
  agentName : String
  agentUrl : String
deriving DecidableEq, Repr

/-- From `src/chestia-web/app/api/copilotkit/route.ts`: the empty service
adapter and the `chestia_recipe_agent` LangGraph HTTP agent. -/
def webRouteConfig : BridgeRouteConfig :=
  { serviceAdapter := .emptyAdapter
    agentName := "chestia_recipe_agent"
    agentUrl := "http://localhost:8000/copilotkit" }

/-- From `src/unnamed/part_003`: the Google generative-AI service adapter
with model `gemini-2.0-flash`, and the same `chestia_recipe_agent`. -/
def altRouteConfig : BridgeRouteConfig :=
  { serviceAdapter := .googleGenerativeAI "gemini-2.0-flash"
    agentName := "chestia_recipe_agent"
    agentUrl := "http://localhost:8000/copilotkit" }

/-- Both route files found in the sources. -/
def bridgeRouteConfigs : List BridgeRouteConfig :=
  [webRouteConfig, altRouteConfig]

/-- Whether a route configuration equips the bridge with a generative-model
adapter of its own (as opposed to the empty adapter that leaves all
generation to the backend agent). -/
def hasOwnGenerationAdapter : BridgeRouteConfig → Bool
  | { serviceAdapter := .emptyAdapter, .. } => false
  | { serviceAdapter := .googleGenerativeAI _, .. } => true

/-! ## UI language state (from `src/unnamed/part_000` and the pages) -/

/-- The initial UI language: `useState<'en' | 'tr'>('en')` in
`src/chestia-web/app/generate/page.tsx` line 12 and
`src/unnamed/part_002` line 21. -/
def uiInitialLanguage : String := "en"

/-- The only values ever passed to `setLanguage` by `LanguageToggle`
(`src/unnamed/part_000` lines 116 and 127). -/
def languageToggleTargets : List String := ["en", "tr"]

/-- The UI language after a sequence of toggle clicks: each click replaces
the current language with the clicked target (React `setState`). -/
def uiLanguageAfter (clicks : List String) : String :=
  clicks.foldl (fun _ c => c) uiInitialLanguage

/-! ## IngredientValidator (spec section 4.1)

The validator itself is backend code that is not among the checked-in
sources; it is modelled from the specification and the repository's test
documentation. -/

/-- Modelled from the spec: the configurable "default pantry" list — salt,
water, cooking oil, sugar, common spices (section 4.1, glossary); the test
report additionally names `olive oil` as a default pantry item. -/
def defaultPantry : List String :=
  ["salt", "water", "oil", "olive oil", "cooking oil", "sugar",
   "pepper", "black pepper"]

/-- Modelled from the spec: the three recognized difficulty labels of the
HTTP surface (section 6). -/
def recognizedDifficulties : List String := ["easy", "intermediate", "hard"]

/-- Modelled from the spec: normalization of one raw ingredient string —
case folding and whitespace trimming (section 4.1). -/
def normalizeIngredient (s : String) : String := toLowerString (trimString s)

/-- Modelled from the spec: the length bound of the character-safety check
(section 4.1); the exact bound is configuration, fixed here. -/
def maxIngredientLength : Nat := 50

/-- Modelled from the spec: the Turkish extended characters admitted by the
character-safety check when the target language is Turkish. -/
def turkishExtendedChars : List Char :=
  ['ç', 'ğ', 'ı', 'ö', 'ş', 'ü', 'Ç', 'Ğ', 'İ', 'Ö', 'Ş', 'Ü']

/-- Modelled from the spec: the permitted alphabet of the character-safety
check — letters, digits, spaces and hyphens, plus the target language's
extended characters (section 4.1). -/
def allowedChar (l : Lang) (c : Char) : Bool :=
  c.isAlpha || c.isDigit || c == ' ' || c == '-' ||
    (l == Lang.tr && turkishExtendedChars.contains c)

/-- Modelled from the spec: the character-safety check on one raw
ingredient string — non-empty, within the length bound, and drawn from the
permitted alphabet (section 4.1). -/
def charSafe (l : Lang) (s : String) : Bool :=
  0 < s.length && s.length ≤ maxIngredientLength && s.toList.all (allowedChar l)

/-- Keep the first occurrence of every element, skipping elements already
seen (deduplication of the normalized ingredient list). -/
def dedupKeepFirstAux (seen : List String) : List String → List String
  | [] => []
  | x :: xs =>
    if seen.contains x then dedupKeepFirstAux seen xs
    else x :: dedupKeepFirstAux (x :: seen) xs

/-- Keep the first occurrence of every element, in order. -/
def dedupKeepFirst (l : List String) : List String := dedupKeepFirstAux [] l

/-- Modelled from the spec: the non-default ingredients remaining after
normalization, deduplication and stripping of default pantry items
(section 4.1). -/
def nonDefaultIngredients (raw : List String) : List String :=
  (dedupKeepFirst (raw.map normalizeIngredient)).filter
    (fun i => !(defaultPantry.contains i))

/-- Modelled from the spec: `IngredientValidator` — fails with
`ValidationError` when fewer than 3 raw ingredients are supplied, when any
ingredient string fails the character-safety check, when the difficulty is
not one of the three recognized levels, or when fewer than 1 non-default
ingredient remains after filtering; otherwise returns the normalized
working set plus the immutable original snapshot (section 4.1). -/
def validateIngredients (raw : List String) (difficulty : String) (l : Lang) :
    Except ErrorKind (List String × List String) :=
  if raw.length < 3 then .error .validationError
  else if !(raw.all (charSafe l)) then .error .validationError
  else if !(recognizedDifficulties.contains difficulty) then .error .validationError
  else if (nonDefaultIngredients raw).length < 1 then .error .validationError
  else .ok (nonDefaultIngredients raw, raw)

/-- Whether validation fails (used to state the failure characterization). -/
def validationFails (raw : List String) (difficulty : String) (l : Lang) : Bool :=
  match validateIngredients raw difficulty l with
  | .error _ => true
  | .ok _ => false

/-- Modelled from the spec: the HTTP status of `POST /generate` as far as
validation decides it — `422` on `ValidationError`, `200` otherwise
(section 6). -/
def generateStatus (raw : List String) (difficulty : String) (l : Lang) : Nat :=
  match validateIngredients raw difficulty l with
  | .error _ => 422
  | .ok _ => 200

/-! ## CacheResolver and RecipeStore (spec sections 4.2, 6)

Modelled from the spec: the backend store and the tiered resolution are
not among the checked-in sources. -/

/-- The exact-match cache key: canonical ingredient set, difficulty and
language (spec sections 3 and 4.2). -/
abbrev CacheKey := List String × Difficulty × Lang

/-- Modelled from the spec: canonicalization of the ingredient set for the
exact cache tier — case-fold and sort (section 4.2), deduplicated since it
represents a set. -/
def insertSorted (x : String) : List String → List String
  | [] => [x]
  | y :: ys => if stringLe x y then x :: y :: ys else y :: insertSorted x ys

/-- Sort a list of strings (insertion sort, used by canonicalization). -/
def sortStrings : List String → List String
  | [] => []
  | x :: xs => insertSorted x (sortStrings xs)

/-- Modelled from the spec: the canonical ingredient set — case-folded,
sorted, deduplicated (section 4.2). -/
def canonicalIngredients (ings : List String) : List String :=
  dedupKeepFirst (sortStrings (ings.map toLowerString))

/-- Modelled from the spec: the canonical lookup key of a request
(section 4.2). -/
def canonicalKey (ings : List String) (d : Difficulty) (l : Lang) : CacheKey :=
  (canonicalIngredients ings, d, l)

/-- Modelled from the spec: a persisted `CacheRecord` — an approved recipe
with its resolution key (section 3; the embedding vector of the semantic
tier is not needed for the exact tier). -/
structure CacheRecord where
  key : CacheKey
  recipe : Recipe
deriving DecidableEq, Repr

/-- Modelled from the spec: the `RecipeStore`, most recently approved
records first (last-approved wins, section 3). -/
abbrev RecipeStore := List CacheRecord

/-- Modelled from the spec: the exact-tier point query against the store
(section 4.2). -/
def exactLookup (store : RecipeStore) (k : CacheKey) : Option Recipe :=
  (store.find? (fun rec => decide (rec.key = k))).map (·.recipe)

/-- Modelled from the spec: `POST /feedback` — `approved=true` persists the
recipe as a new `CacheRecord` under the request's canonical key (newest
first, last-approved wins); `approved=false` persists nothing (section 6). -/
def feedbackUpdate (store : RecipeStore) (ings : List String) (d : Difficulty)
    (l : Lang) (approved : Bool) (r : Recipe) : RecipeStore :=
  if approved then { key := canonicalKey ings d l, recipe := r } :: store
  else store

/-- An external-provider call made during resolution. -/
inductive ProviderCall where
  | embeddingCall
  | webSearchCall
  | generationCall
deriving DecidableEq, Repr

/-- The tier at which a resolution terminated. -/
inductive ResolveTier where
  | exactTier
  | semanticTier
  | webTier
  | generatedTier
  | failedTier
deriving DecidableEq, Repr

/-- The behaviour of the external providers during one resolution: the
outcome of the semantic tier (embedding + vector query), of the web-search
stage, and of generation.  The providers are black boxes (spec section 1). -/
structure ProviderEnv where
  semanticResult : Option Recipe
  webResult : Option Recipe
  genResult : Option Recipe
deriving DecidableEq, Repr

/-- The result of one resolution: the recipe (if any), the terminating
tier, and the provider calls issued, in order. -/
structure ResolveOutcome where
  recipe : Option Recipe
  tier : ResolveTier
  calls : List ProviderCall
deriving DecidableEq, Repr

/-- Modelled from the spec: the tiered lookup of `CacheResolver` followed
by the fallback stages — exact tier first (a hit is terminal success with
no further stages and no provider calls), then the semantic tier via the
embedding provider, then web search, then generation (sections 4.2–4.4). -/
def resolveRequest (store : RecipeStore) (ings : List String) (d : Difficulty)
    (l : Lang) (env : ProviderEnv) : ResolveOutcome :=
  match exactLookup store (canonicalKey ings d l) with
  | some r => { recipe := some r, tier := .exactTier, calls := [] }
  | none =>
    match env.semanticResult with
    | some r =>
        { recipe := some r, tier := .semanticTier, calls := [.embeddingCall] }
    | none =>
      match env.webResult with
      | some r =>
          { recipe := some r, tier := .webTier
            calls := [.embeddingCall, .webSearchCall] }
      | none =>
        match env.genResult with
        | some r =>
            { recipe := some r, tier := .generatedTier
              calls := [.embeddingCall, .webSearchCall, .generationCall] }
        | none =>
            { recipe := none, tier := .failedTier
              calls := [.embeddingCall, .webSearchCall, .generationCall] }

/-! ## ReviewGate (spec section 4.5)

Modelled from the spec: the review agent is backend code that is not among
the checked-in sources.  Its logical-consistency judgment is an LLM
critique, modelled as a boolean input; the hallucination/safety check is
the algorithmic membership test of section 4.5. -/

/-- The outcome of reviewing a candidate recipe (spec section 4.5). -/
inductive ReviewOutcome where
  | valid
  | invalidFixable (suggested : List String)
  | invalidUnfixable
deriving DecidableEq, Repr

/-- Modelled from the spec: the hallucination/safety check — every
ingredient of the candidate recipe is in the working set, a default pantry
item, or a previously-approved extra of this session (section 4.5). -/
def hallucinationFree (cand : Recipe) (working approvedExtras : List String) : Bool :=
  cand.ingredients.all (fun i =>
    working.contains i || defaultPantry.contains i || approvedExtras.contains i)

/-- Modelled from the spec: `ReviewGate` — `valid` only when both the
logical-consistency critique and the hallucination check pass; otherwise
`invalid-fixable` with the suggested extras when the reviewer can propose
some, `invalid-unfixable` when it cannot (section 4.5). -/
def reviewGate (cand : Recipe) (working approvedExtras : List String)
    (consistent : Bool) (suggestion : Option (List String)) : ReviewOutcome :=
  if hallucinationFree cand working approvedExtras && consistent then
    .valid
  else
    match suggestion with
    | some extras => .invalidFixable extras
    | none => .invalidUnfixable

/-! ## ResolutionOrchestrator state machine (spec section 4.6)

Modelled from the spec: the orchestrator is backend code that is not among
the checked-in sources.  States and transitions follow the transition
table of section 4.6; the environment (validator outcome, cache and search
results, candidate recipes, review outcomes, the user's decision) drives
the machine through events. -/

/-- The control state of one resolution session (spec section 4.6).
`reviewing` carries the candidate under review; `awaitingApproval` carries
the candidate and the extra-ingredient proposal pending user decision. -/
inductive Phase where
  | validating
  | caching
  | searching
  | generating
  | reviewing (cand : Recipe)
  | awaitingApproval (cand : Recipe) (proposal : List String)
  | succeeded
  | failed (e : ErrorKind)
deriving DecidableEq, Repr

/-- Modelled from the spec: `ResolutionSession` (section 3) together with
its control state — working ingredient set, immutable original snapshot,
difficulty, language, the cumulative proposed extras, the extra and
iteration counters, the rejected combinations, and the terminal recipe or
error. -/
structure Session where
  phase : Phase
  ingredients : List String
  originalIngredients : List String
  difficulty : Difficulty
  language : Lang
  extraProposed : List String
  extraCount : Nat
  iterationCount : Nat
  rejected : List (List String)
  recipe : Option Recipe
  error : Option ErrorKind
deriving DecidableEq, Repr

/-- Modelled from the spec: the session created at request entry
(section 3): counters at zero, no proposals, no rejections, no result. -/
def initSession (orig : List String) (d : Difficulty) (l : Lang) : Session :=
  { phase := .validating
    ingredients := orig
    originalIngredients := orig
    difficulty := d
    language := l
    extraProposed := []
    extraCount := 0
    iterationCount := 0
    rejected := []
    recipe := none
    error := none }

/-- The environment events that drive a session: outcomes of the stages and
of the user's approval decision (spec section 4.6). -/
inductive Event where
  | validateOk (working : List String)
  | validateFail
  | cacheHit (r : Recipe)
  | cacheMiss
  | searchHit (cand : Recipe)
  | searchMiss
  | generated (cand : Recipe)
  | reviewValid
  | reviewUnfixable
  | reviewFixable (proposal : List String)
  | reviewExhausted
  | approveExtras
  | rejectExtras
deriving DecidableEq, Repr

/-- Modelled from the spec: the guard under which `ReviewGate` may emit an
extra-ingredient suggestion (sections 4.5 and 4.6): 1–2 extras, iteration
budget remaining, extra budget sufficient, the combination not previously
rejected, and none of its ingredients previously proposed. -/
def fixableOk (s : Session) (p : List String) : Prop :=
  1 ≤ p.length ∧ p.length ≤ 2 ∧ s.iterationCount < 3 ∧
    s.extraCount + p.length ≤ 2 ∧ p ∉ s.rejected ∧
    ∀ x ∈ p, x ∉ s.extraProposed

instance (s : Session) (p : List String) : Decidable (fixableOk s p) := by
  unfold fixableOk; infer_instance

/-- Modelled from the spec: the transition table of section 4.6.  `none`
means the event cannot fire in the current state.  On approval the extras
are merged into the working set and both counters advance (`extra_count`
by the number of approved extras, matching the budget guard
`extra_count + proposed_extras ≤ 2`); on rejection the combination is
recorded in `rejected_combinations` and the iteration counter advances,
failing with `ExhaustedRetries` when no iteration budget remains. -/
def stepFn (s : Session) (e : Event) : Option Session :=
  match s.phase, e with
  | .validating, .validateOk w =>
      some { s with phase := .caching, ingredients := w }
  | .validating, .validateFail =>
      some { s with phase := .failed .validationError
                    error := some .validationError }
  | .caching, .cacheHit r =>
      some { s with phase := .succeeded, recipe := some r }
  | .caching, .cacheMiss => some { s with phase := .searching }
  | .searching, .searchHit cand => some { s with phase := .reviewing cand }
  | .searching, .searchMiss => some { s with phase := .generating }
  | .generating, .generated cand => some { s with phase := .reviewing cand }
  | .reviewing cand, .reviewValid =>
      some { s with phase := .succeeded, recipe := some cand }
  | .reviewing _, .reviewUnfixable =>
      some { s with phase := .failed .generationError
                    error := some .generationError }
  | .reviewing cand, .reviewFixable p =>
      if fixableOk s p then
        some { s with phase := .awaitingApproval cand p
                      extraProposed := s.extraProposed ++ p }
      else none
  | .reviewing _, .reviewExhausted =>
      some { s with phase := .failed .exhaustedRetries
                    error := some .exhaustedRetries }
  | .awaitingApproval _ p, .approveExtras =>
      some { s with phase := .generating
                    ingredients := s.ingredients ++ p
                    extraCount := s.extraCount + p.length
                    iterationCount := s.iterationCount + 1 }
  | .awaitingApproval _ p, .rejectExtras =>
      if s.iterationCount + 1 < 3 then
        some { s with phase := .generating
                      rejected := p :: s.rejected
                      iterationCount := s.iterationCount + 1 }
      else
        some { s with phase := .failed .exhaustedRetries
                      error := some .exhaustedRetries
                      rejected := p :: s.rejected
                      iterationCount := s.iterationCount + 1 }
  | _, _ => none

/-- Run a session through a sequence of environment events; `none` when
some event cannot fire. -/
def runEvents (s : Session) : List Event → Option Session
  | [] => some s
  | e :: es =>
    match stepFn s e with
    | some s' => runEvents s' es
    | none => none

/-- The extra-ingredient combinations emitted by `ReviewGate` along an
event sequence, in order of emission. -/
def emittedAlong (s : Session) : List Event → List (List String)
  | [] => []
  | e :: es =>
    match stepFn s e with
    | some s' =>
        (match e with
         | .reviewFixable p => [p]
         | _ => []) ++ emittedAlong s' es
    | none => []

/-! ## RecipeCard list parsing (from
`src/chestia-web/components/recipe-card.tsx`)

`parseList` normalizes whatever the backend delivered for
`recipe.ingredients` / `recipe.steps` into a list of strings.  JavaScript
values and `JSON.parse` are modelled explicitly. -/

/-- A JavaScript value as far as `parseList` can observe it: a string, a
number (kept as its JSON lexeme), a boolean, `null`, an array or an
object. -/
inductive JSVal where
  | str (s : String)
  | num (lexeme : String)
  | bool (b : Bool)
  | null
  | arr (elems : List JSVal)
  | obj (fields : List (String × JSVal))

/-- The opening-brace character, referred to by code point. -/
def lbraceChar : Char := Char.ofNat 123

/-- The closing-brace character, referred to by code point. -/
def rbraceChar : Char := Char.ofNat 125

/-- Skip JSON whitespace. -/
def skipJsonWs : List Char → List Char
  | [] => []
  | c :: cs => if isWsChar c then skipJsonWs cs else c :: cs

/-- Hexadecimal digit value, for `\u` escapes. -/
def hexDigitVal (c : Char) : Option Nat :=
  if c.isDigit then some (c.toNat - 48)
  else if 'a'.toNat ≤ c.toNat && c.toNat ≤ 'f'.toNat then some (c.toNat - 87)
  else if 'A'.toNat ≤ c.toNat && c.toNat ≤ 'F'.toNat then some (c.toNat - 55)
  else none

/-- Parse the body of a JSON string literal (after the opening quote),
handling the JSON escapes; fails on unescaped control characters and
malformed escapes, as `JSON.parse` does. -/
def jvTakeStringBody : List Char → List Char → Option (String × List Char)
  | [], _ => none
  | c :: cs, acc =>
    if c == '"' then some (String.mk acc.reverse, cs)
    else if c == '\\' then
      match cs with
      | [] => none
      | e :: cs2 =>
        if e == '"' then jvTakeStringBody cs2 ('"' :: acc)
        else if e == '\\' then jvTakeStringBody cs2 ('\\' :: acc)
        else if e == '/' then jvTakeStringBody cs2 ('/' :: acc)
        else if e == 'b' then jvTakeStringBody cs2 (Char.ofNat 8 :: acc)
        else if e == 'f' then jvTakeStringBody cs2 (Char.ofNat 12 :: acc)
        else if e == 'n' then jvTakeStringBody cs2 ('\n' :: acc)
        else if e == 'r' then jvTakeStringBody cs2 ('\r' :: acc)
        else if e == 't' then jvTakeStringBody cs2 ('\t' :: acc)
        else if e == 'u' then
          match cs2 with
          | h1 :: h2 :: h3 :: h4 :: cs3 =>
            match hexDigitVal h1, hexDigitVal h2, hexDigitVal h3, hexDigitVal h4 with
            | some a, some b, some c2, some d =>
                jvTakeStringBody cs3
                  (Char.ofNat (((a * 16 + b) * 16 + c2) * 16 + d) :: acc)
            | _, _, _, _ => none
          | _ => none
        else none
    else if c.toNat < 32 then none
    else jvTakeStringBody cs (c :: acc)

/-- Digit span of a character list. -/
def spanDigits : List Char → List Char × List Char
  | [] => ([], [])
  | c :: cs =>
    if c.isDigit then
      let (a, b) := spanDigits cs
      (c :: a, b)
    else ([], c :: cs)

/-- Parse the optional fraction part of a JSON number. -/
def jvTakeFrac : List Char → Option (List Char × List Char)
  | c :: fr =>
    if c == '.' then
      match spanDigits fr with
      | ([], _) => none
      | (ds, r) => some (c :: ds, r)
    else some ([], c :: fr)
  | [] => some ([], [])

/-- Parse the optional exponent part of a JSON number. -/
def jvTakeExp : List Char → Option (List Char × List Char)
  | c :: rest =>
    if c == 'e' || c == 'E' then
      let (sgn, rest2) :=
        match rest with
        | s :: r2 => if s == '+' || s == '-' then ([s], r2) else ([], rest)
        | [] => ([], rest)
      match spanDigits rest2 with
      | ([], _) => none
      | (ds, r) => some (c :: (sgn ++ ds), r)
    else some ([], c :: rest)
  | [] => some ([], [])

/-- Parse a JSON number, keeping its lexeme (sign, integer part without
leading zeros, optional fraction, optional exponent). -/
def jvTakeNumber (cs : List Char) : Option (String × List Char) :=
  let (signPart, afterSign) :=
    match cs with
    | c :: rest => if c == '-' then ([c], rest) else ([], cs)
    | [] => ([], cs)
  match afterSign with
  | [] => none
  | d :: rest =>
    if !d.isDigit then none
    else
      let (intRest, afterInt) := spanDigits rest
      if d == '0' && !intRest.isEmpty then none
      else
        match jvTakeFrac afterInt with
        | none => none
        | some (fracPart, afterFrac) =>
          match jvTakeExp afterFrac with
          | none => none
          | some (expPart, afterExp) =>
            some (String.mk (signPart ++ d :: intRest ++ fracPart ++ expPart),
                  afterExp)

mutual

/-- Parse one JSON value; the fuel bounds the nesting depth and decreases
on every recursive call. -/
def jvTakeValue : Nat → List Char → Option (JSVal × List Char)
  | 0, _ => none
  | Nat.succ fuel, cs =>
    match skipJsonWs cs with
    | [] => none
    | c :: rest =>
      if c == '"' then
        match jvTakeStringBody rest [] with
        | some (s, r) => some (.str s, r)
        | none => none
      else if c == '[' then
        match skipJsonWs rest with
        | c2 :: r2 =>
          if c2 == ']' then some (.arr [], r2)
          else
            match jvTakeItems fuel (c2 :: r2) with
            | some (items, r3) => some (.arr items, r3)
            | none => none
        | [] => none
      else if c == lbraceChar then
        match skipJsonWs rest with
        | c2 :: r2 =>
          if c2 == rbraceChar then some (.obj [], r2)
          else
            match jvTakeMembers fuel (c2 :: r2) with
            | some (fields, r3) => some (.obj fields, r3)
            | none => none
        | [] => none
      else if c == 't' then
        match rest with
        | 'r' :: 'u' :: 'e' :: r => some (.bool true, r)
        | _ => none
      else if c == 'f' then
        match rest with
        | 'a' :: 'l' :: 's' :: 'e' :: r => some (.bool false, r)
        | _ => none
      else if c == 'n' then
        match rest with
        | 'u' :: 'l' :: 'l' :: r => some (.null, r)
        | _ => none
      else
        match jvTakeNumber (c :: rest) with
        | some (lex, r) => some (.num lex, r)
        | none => none

/-- Parse the comma-separated items of a non-empty JSON array, up to and
including the closing bracket. -/
def jvTakeItems : Nat → List Char → Option (List JSVal × List Char)
  | 0, _ => none
  | Nat.succ fuel, cs =>
    match jvTakeValue fuel cs with
    | some (v, r) =>
      match skipJsonWs r with
      | c :: r2 =>
        if c == ',' then
          match jvTakeItems fuel r2 with
          | some (vs, r3) => some (v :: vs, r3)
          | none => none
        else if c == ']' then some ([v], r2)
        else none
      | [] => none
    | none => none

/-- Parse the comma-separated members of a non-empty JSON object, up to
and including the closing brace. -/
def jvTakeMembers : Nat → List Char → Option (List (String × JSVal) × List Char)
  | 0, _ => none
  | Nat.succ fuel, cs =>
    match skipJsonWs cs with
    | c :: rest =>
      if c == '"' then
        match jvTakeStringBody rest [] with
        | some (k, r) =>
          match skipJsonWs r with
          | c2 :: r2 =>
            if c2 == ':' then
              match jvTakeValue fuel r2 with
              | some (v, r3) =>
                match skipJsonWs r3 with
                | c3 :: r4 =>
                  if c3 == ',' then
                    match jvTakeMembers fuel r4 with
                    | some (ms, r5) => some ((k, v) :: ms, r5)
                    | none => none
                  else if c3 == rbraceChar then some ([(k, v)], r4)
                  else none
                | [] => none
              | none => none
            else none
          | [] => none
        | none => none
      else none
    | [] => none

end

/-- The model of `JSON.parse`: parse one value and require only whitespace
after it; `none` models a thrown `SyntaxError`. -/
def jsonParse (s : String) : Option JSVal :=
  let cs := s.toList
  match jvTakeValue (cs.length + 2) cs with
  | some (v, rest) => if skipJsonWs rest = [] then some v else none
  | none => none

mutual

/-- JavaScript `String(v)` conversion as far as `parseList` uses it. -/
def jsToString : JSVal → String
  | .str s => s
  | .num lexeme => lexeme
  | .bool b => if b then "true" else "false"
  | .null => "null"
  | .arr l => jsArrayToString l
  | .obj _ => "[object Object]"

/-- `String()` of one array element (`null` becomes the empty string
inside `Array.prototype.toString`). -/
def jsArrayElem : JSVal → String
  | .str s => s
  | .num lexeme => lexeme
  | .bool b => if b then "true" else "false"
  | .null => ""
  | .arr l => jsArrayToString l
  | .obj _ => "[object Object]"

/-- `Array.prototype.toString`: elements joined by commas. -/
def jsArrayToString : List JSVal → String
  | [] => ""
  | [v] => jsArrayElem v
  | v :: vs => jsArrayElem v ++ "," ++ jsArrayToString vs

end

/-- `safeDecode` from `recipe-card.tsx` lines 26–40, in its pure branch:
the sequential global replacements of the five HTML entities.  (In a
browser the DOM-based `decodeHtml` is tried first and falls back to the
input on failure; the entity replacements are the specified server-side
behaviour.) -/
def safeDecode (s : String) : String :=
  replaceAllString
    (replaceAllString
      (replaceAllString
        (replaceAllString
          (replaceAllString s "&#39;" apostrophe)
          "&quot;" "\"")
        "&amp;" "&")
      "&lt;" "<")
    "&gt;" ">"

/-- The quote fix of `recipe-card.tsx` line 62: replace every single quote
by a double quote. -/
def jsReplaceQuotes (s : String) : String :=
  replaceAllString s apostrophe "\""

/-- `parseList` from `recipe-card.tsx` lines 43–83, embedded match for
match: arrays map through `safeDecode ∘ String`; strings first try
`JSON.parse`, then — only when the trimmed string is bracketed — the
single-quote fix, falling back to the one-element list; non-bracketed
strings are newline-split (blank entries removed) or returned as a
one-element list; every other value yields `[]`. -/
def parseList (input : JSVal) : List String :=
  match input with
  | .arr l => l.map (fun v => safeDecode (jsToString v))
  | .str s =>
    let parsed : List JSVal :=
      match jsonParse s with
      | some (.arr l) => l
      | _ =>
        if startsWithString (trimString s) "[" &&
            endsWithString (trimString s) "]" then
          match jsonParse (jsReplaceQuotes s) with
          | some (.arr l) => l
          | _ => [.str s]
        else if containsChar s '\n' then
          ((splitOnString s '\n').filter
            (fun t => decide (0 < (trimString t).length))).map JSVal.str
        else [.str s]
    parsed.map (fun v => safeDecode (jsToString v))
  | _ => []

/-- The behaviour of `parseList` as the claim words it: a linear chain in
which any string that is neither a JSON array nor a successfully re-parsed
bracketed list falls through to the newline split. -/
def parseListClaimed (input : JSVal) : List String :=
  match input with
  | .arr l => l.map (fun v => safeDecode (jsToString v))
  | .str s =>
    match jsonParse s with
    | some (.arr l) => l.map (fun v => safeDecode (jsToString v))
    | _ =>
      match
        (if startsWithString (trimString s) "[" &&
            endsWithString (trimString s) "]" then
          jsonParse (jsReplaceQuotes s)
        else none) with
      | some (.arr l) => l.map (fun v => safeDecode (jsToString v))
      | _ =>
        if containsChar s '\n' then
          ((splitOnString s '\n').filter
            (fun t => decide (0 < (trimString t).length))).map safeDecode
        else [safeDecode s]
  | _ => []

/-- The behaviour of `parseList` as amended: a bracketed string that fails
to re-parse yields the one-element list containing it (it is never
newline-split); only non-bracketed strings are newline-split. -/
def parseListDescribed (input : JSVal) : List String :=
  match input with
  | .arr l => l.map (fun v => safeDecode (jsToString v))
  | .str s =>
    match jsonParse s with
    | some (.arr l) => l.map (fun v => safeDecode (jsToString v))
    | _ =>
      if startsWithString (trimString s) "[" &&
          endsWithString (trimString s) "]" then
        match jsonParse (jsReplaceQuotes s) with
        | some (.arr l) => l.map (fun v => safeDecode (jsToString v))
        | _ => [safeDecode s]
      else if containsChar s '\n' then
        ((splitOnString s '\n').filter
          (fun t => decide (0 < (trimString t).length))).map safeDecode
      else [safeDecode s]
  | _ => []

/-! ## Localization catalog (from `src/unnamed/part_001`)

The `translations` constant, flattened to (key path, leaf text) pairs in
source order. -/

/-- The English half of the `translations` constant. -/
def translationsEn : List (List String × String) :=
  [ (["nav", "home"], "Home"),
    (["nav", "about"], "About"),
    (["nav", "contact"], "Contact"),
    (["nav", "faq"], "FAQ"),
    (["hero", "title"], "Unlock Your Kitchen" ++ apostrophe ++ "s Potential"),
    (["hero", "subtitle"],
     "Chestia turns your leftover ingredients into Michelin-star ideas. Stop wasting, start creating."),
    (["hero", "cta"], "Generate Recipe"),
    (["hero", "inputPlaceholder"], "Tell us what you have..."),
    (["howItWorks", "title"], "How It Works"),
    (["howItWorks", "subtitle"], "Three simple steps to delicious recipes"),
    (["howItWorks", "step1", "title"], "Tell Us What You Have"),
    (["howItWorks", "step1", "description"],
     "Input the ingredients currently in your fridge or pantry. No detail is too small."),
    (["howItWorks", "step2", "title"], "The Magic Happens"),
    (["howItWorks", "step2", "description"],
     "Our AI analyzes flavor profiles to construct the perfect meal from your available stocks."),
    (["howItWorks", "step3", "title"], "Cook & Impress"),
    (["howItWorks", "step3", "description"],
     "Follow step-by-step instructions to create a dish that looks and tastes professional."),
    (["recipePreview", "title"], "Inspiring Recipes from Simple Ingredients"),
    (["recipePreview", "subtitle"],
     "Every recipe is crafted to maximize flavor while minimizing waste. From breakfast to dinner."),
    (["recipeExamples", "pasta"], "Creamy Garlic Pasta"),
    (["recipeExamples", "pastaDesc"],
     "Transform simple pasta and pantry staples into a restaurant-quality cream sauce."),
    (["recipeExamples", "stir"], "Quick Stir Fry"),
    (["recipeExamples", "stirDesc"],
     "Combine fresh vegetables with your choice of protein for a quick weeknight dinner."),
    (["recipeExamples", "soup"], "Rustic Vegetable Soup"),
    (["recipeExamples", "soupDesc"],
     "A hearty, warming soup that makes the most of seasonal produce."),
    (["features", "title"], "Why Choose Chestia"),
    (["features", "fast"], "Lightning Fast"),
    (["features", "fastDesc"],
     "Get recipe suggestions in seconds. No endless scrolling through complicated cookbooks."),
    (["features", "creative"], "Creative Combinations"),
    (["features", "creativeDesc"],
     "Discover flavor pairings you never thought possible. Elevate your cooking skills."),
    (["features", "smart"], "Smart Suggestions"),
    (["features", "smartDesc"],
     "AI-powered recipes that understand ingredient compatibility and dietary preferences."),
    (["cta", "title"], "Ready to Cook Something Amazing?"),
    (["cta", "subtitle"],
     "Start exploring recipes from your ingredients today. Free to use, always."),
    (["cta", "button"], "Generate Your First Recipe"),
    (["footer", "about"], "About Us"),
    (["footer", "aboutDesc"],
     "Chestia was born from a simple question: Why is cooking dinner so hard even when the fridge is full?"),
    (["footer", "contact"], "Get in Touch"),
    (["footer", "email"], "hello@chestia.web"),
    (["footer", "address"], "123 Culinary Ave, Tech District"),
    (["footer", "links"], "Quick Links"),
    (["footer", "faq"], "FAQ"),
    (["footer", "privacy"], "Privacy Policy"),
    (["footer", "terms"], "Terms of Service"),
    (["footer", "copyright"], "© 2026 Chestia. All rights reserved.") ]

/-- The Turkish half of the `translations` constant. -/
def translationsTr : List (List String × String) :=
  [ (["nav", "home"], "Ana Sayfa"),
    (["nav", "about"], "Hakkında"),
    (["nav", "contact"], "İletişim"),
    (["nav", "faq"], "SSS"),
    (["hero", "title"], "Mutfağınızın Potansiyelini Ortaya Çıkarın"),
    (["hero", "subtitle"],
     "Chestia, elinizde kalan malzemeleri Michelin yıldızlı fikirlere dönüştürür. Daha fazla harcamayın, yaratmaya başlayın."),
    (["hero", "cta"], "Tarif Oluştur"),
    (["hero", "inputPlaceholder"], "Ne malzemeniz var söyleyin..."),
    (["howItWorks", "title"], "Nasıl Çalışır"),
    (["howItWorks", "subtitle"],
     "Lezzetli tariflere ulaşmak için üç basit adım"),
    (["howItWorks", "step1", "title"], "Elindekini Bize Söyle"),
    (["howItWorks", "step1", "description"],
     "Buzdolabında veya pantiyonda olan malzemeleri gir. Hiçbir detay çok küçük değildir."),
    (["howItWorks", "step2", "title"], "Büyü Gerçekleşir"),
    (["howItWorks", "step2", "description"],
     "AI yapay zekamız lezzet profillerini analiz ederek mükemmel yemeği oluşturur."),
    (["howItWorks", "step3", "title"], "Pişir ve Etkilendiri"),
    (["howItWorks", "step3", "description"],
     "Adım adım talimatları izleyerek profesyonel görünümlü bir yemek yarat."),
    (["recipePreview", "title"], "Basit Malzemelerden İlham Veren Tarifler"),
    (["recipePreview", "subtitle"],
     "Her tarif, lezzeti en yüksek seviyeye çıkarırken atıkları en aza indirmek için tasarlanmıştır."),
    (["recipeExamples", "pasta"], "Krem Sarımsaklı Makarna"),
    (["recipeExamples", "pastaDesc"],
     "Basit makarnayı restoran kalitesinde bir krem sosuna dönüştür."),
    (["recipeExamples", "stir"], "Hızlı Tavada Pişme"),
    (["recipeExamples", "stirDesc"],
     "Taze sebzeleri tercih ettiğin proteini ile birleştirerek hızlı bir akşam yemeği hazırla."),
    (["recipeExamples", "soup"], "Rustic Sebze Çorbası"),
    (["recipeExamples", "soupDesc"],
     "Sezonluk ürünleri en iyi şekilde kullanan sıcak ve doyurucu bir çorba."),
    (["features", "title"], "Neden Chestia?"),
    (["features", "fast"], "Işık Hızında"),
    (["features", "fastDesc"],
     "Saniyeler içinde tarif önerileri al. Karışık mutfak kitaplarında sonsuz kaydırma yok."),
    (["features", "creative"], "Yaratıcı Kombinasyonlar"),
    (["features", "creativeDesc"],
     "Asla düşünmediğin lezzet kombinasyonlarını keşfet. Mutfak becerilerini geliştir."),
    (["features", "smart"], "Akıllı Öneriler"),
    (["features", "smartDesc"],
     "Malzeme uyumluluğunu ve diyet tercihlerini anlayan yapay zeka destekli tarifler."),
    (["cta", "title"], "Harika Bir Şey Pişirmeye Hazır Mısın?"),
    (["cta", "subtitle"],
     "Bugün malzemelerinizden tarifler keşfetmeye başlayın. Ücretsiz ve her zaman."),
    (["cta", "button"], "İlk Tarifinizi Oluşturun"),
    (["footer", "about"], "Hakkımızda"),
    (["footer", "aboutDesc"],
     "Chestia, basit bir sorudan doğdu: Buzdolabı doluyken neden akşam yemeği pişirmek bu kadar zor?"),
    (["footer", "contact"], "İletişim"),
    (["footer", "email"], "hello@chestia.web"),
    (["footer", "address"], "123 Aşçılık Cad., Teknoloji Bölgesi"),
    (["footer", "links"], "Hızlı Bağlantılar"),
    (["footer", "faq"], "SSS"),
    (["footer", "privacy"], "Gizlilik Politikası"),
    (["footer", "terms"], "Hizmet Şartları"),
    (["footer", "copyright"], "© 2026 Chestia. Tüm hakları saklıdır.") ]

/-- The nested key structure of a translation table: its key paths in
source order. -/
def translationKeys (t : List (List String × String)) : List (List String) :=
  t.map Prod.fst

/-- A translation lookup (`t.hero.title` becomes the path
`["hero", "title"]`). -/
def lookupTranslation (t : List (List String × String))
    (path : List String) : Option String :=
  (t.find? (fun e => decide (e.1 = path))).map Prod.snd

/-- Every translation lookup performed by the UI components: `Footer`
(`src/unnamed/part_000`), `Hero` (`components/hero.tsx`), `HowItWorks`
(`components/how-it-works.tsx`) and the landing page. -/
def uiTranslationPaths : List (List String) :=
  [ ["footer", "about"], ["footer", "aboutDesc"], ["footer", "contact"],
    ["footer", "email"], ["footer", "address"], ["footer", "links"],
    ["footer", "faq"], ["footer", "privacy"], ["footer", "terms"],
    ["footer", "copyright"],
    ["hero", "title"], ["hero", "subtitle"], ["hero", "inputPlaceholder"],
    ["hero", "cta"],
    ["howItWorks", "title"], ["howItWorks", "subtitle"],
    ["howItWorks", "step1", "title"], ["howItWorks", "step1", "description"],
    ["howItWorks", "step2", "title"], ["howItWorks", "step2", "description"],
    ["howItWorks", "step3", "title"], ["howItWorks", "step3", "description"],
    ["recipePreview", "title"], ["recipePreview", "subtitle"],
    ["recipeExamples", "pasta"], ["recipeExamples", "pastaDesc"],
    ["recipeExamples", "stir"], ["recipeExamples", "stirDesc"],
    ["recipeExamples", "soup"], ["recipeExamples", "soupDesc"],
    ["features", "title"], ["features", "fast"], ["features", "fastDesc"],
    ["features", "creative"], ["features", "creativeDesc"],
    ["features", "smart"], ["features", "smartDesc"],
    ["cta", "title"], ["cta", "subtitle"], ["cta", "button"] ]

/-- The inductive invariant of the session state machine: both budget
bounds, the pending-proposal conditions in `awaitingApproval`, and the
bookkeeping that every rejected combination is a non-empty combination
whose members were proposed earlier. -/
def sessionInv (s : Session) : Prop :=
  s.extraCount ≤ 2 ∧ s.iterationCount ≤ 3 ∧
  (match s.phase with
   | .awaitingApproval _ p =>
       1 ≤ p.length ∧ s.extraCount + p.length ≤ 2 ∧ s.iterationCount < 3 ∧
         ∀ x ∈ p, x ∈ s.extraProposed
   | _ => True) ∧
  (∀ c ∈ s.rejected, c ≠ [] ∧ ∀ x ∈ c, x ∈ s.extraProposed)

/-! ## Concrete data used to instantiate the theorems -/

/-- A concrete recipe used to instantiate theorems on concrete inputs. -/
def witnessRecipe : Recipe :=
  { name := "Cheese Omelette"
    ingredients := ["egg", "cheese", "salt"]
    steps := ["Whisk the eggs.", "Add cheese and cook."]
    metadata := [("time", "10 min")] }

/-- A concrete event sequence: validation succeeds. -/
def c1Events : List Event :=
  [Event.validateOk ["egg", "cheese", "spinach"]]

/-- The session reached by `c1Events` from the initial session. -/
def c1State : Session :=
  { phase := .caching
    ingredients := ["egg", "cheese", "spinach"]
    originalIngredients := ["egg", "cheese", "spinach"]
    difficulty := .easy
    language := .en
    extraProposed := []
    extraCount := 0
    iterationCount := 0
    rejected := []
    recipe := none
    error := none }

/-- The session reached from `c1State` by a cache miss. -/
def c1StateNext : Session :=
  { c1State with phase := .searching }

/-- A concrete event sequence reaching the review stage. -/
def c2Events : List Event :=
  [Event.validateOk ["egg"], Event.cacheMiss, Event.searchMiss,
   Event.generated witnessRecipe]

/-- The session reached by `c2Events` from the initial session. -/
def c2State : Session :=
  { phase := .reviewing witnessRecipe
    ingredients := ["egg"]
    originalIngredients := ["egg"]
    difficulty := .easy
    language := .en
    extraProposed := []
    extraCount := 0
    iterationCount := 0
    rejected := []
    recipe := none
    error := none }

/-- A store holding exactly one approved record, persisted via the
feedback update. -/
def c3Store : RecipeStore :=
  feedbackUpdate [] ["Egg", "cheese", "salt"] .easy .en true witnessRecipe

/-- A provider environment in which every fallback stage would miss. -/
def quietEnv : ProviderEnv :=
  { semanticResult := none, webResult := none, genResult := none }

/-- A provider environment in which every fallback stage would hit. -/
def busyEnv : ProviderEnv :=
  { semanticResult := some witnessRecipe
    webResult := some witnessRecipe
    genResult := some witnessRecipe }

/-- The concrete string exhibiting the bracketed-with-newline behaviour of
`parseList`. -/
def bracketNewlineInput : String := "[a\nb]"

/-! ## Theorems -/

/-- Claim C6, counterexample: the spec's mirror field `recipe` (like
`extra_ingredients`, `extra_count` and `iteration_count`) is not among the
fields of the bridge-side `AgentState`, so the bridge state does not carry
every externally-visible `ResolutionSession` field. -/
theorem c6_mirrorFields_counterexample :
    "recipe" ∈ sessionMirrorFields ∧ "recipe" ∉ agentStateFields := by
  decide

/-- Claim C6 as amended: the bridge-side `AgentState` carries exactly the
fields `ingredients`, `original_ingredients`, `difficulty`, `lang`,
`error`; of the spec's eight mirror fields exactly `ingredients`,
`difficulty`, `lang` and `error` are present, while `recipe`,
`extra_ingredients`, `extra_count` and `iteration_count` are absent. -/
theorem c6_mirrorFields_amended :
    sessionMirrorFields.filter (fun f => decide (f ∈ agentStateFields)) =
      ["ingredients", "difficulty", "lang", "error"] ∧
    sessionMirrorFields.filter (fun f => decide (f ∉ agentStateFields)) =
      ["recipe", "extra_ingredients", "extra_count", "iteration_count"] ∧
    agentStateFields.filter (fun f => decide (f ∉ sessionMirrorFields)) =
      ["original_ingredients"] := by
  decide

/-- Claim C7, counterexample: the route variant of `src/unnamed/part_003`
equips the bridge with a generative-model service adapter
(`gemini-2.0-flash`), so not every bridge route configuration is free of
generation capability of its own. -/
theorem c7_bridgeRelay_counterexample :
    altRouteConfig ∈ bridgeRouteConfigs ∧
      hasOwnGenerationAdapter altRouteConfig = true := by
  decide

/-- Claim C7 as amended: the bridge page never writes the recipe — its
only state update (`syncLang`) changes `lang` alone and `AgentState`
carries no `recipe` field at all — and the `chestia-web` route delegates
to the backend `chestia_recipe_agent` through the empty service adapter;
only the alternate route file (`src/unnamed/part_003`) configures a
generative adapter inside the bridge. -/
theorem c7_bridgeRelay_amended (st : AgentState) (language : String) :
    (syncLang st language).ingredients = st.ingredients ∧
    (syncLang st language).original_ingredients = st.original_ingredients ∧
    (syncLang st language).difficulty = st.difficulty ∧
    (syncLang st language).error = st.error ∧
    "recipe" ∉ agentStateFields ∧
    hasOwnGenerationAdapter webRouteConfig = false ∧
    webRouteConfig.agentName = "chestia_recipe_agent" := by
  unfold syncLang
  split <;> simp <;> decide

/-- Helper: folding "replace the accumulator by the clicked value" stays
inside a set containing the start value and all clicked values. -/
theorem foldlReplaceMem (targets : List String) (clicks : List String)
    (init : String) (h0 : init ∈ targets) (h : ∀ c ∈ clicks, c ∈ targets) :
    clicks.foldl (fun _ c => c) init ∈ targets := by
  induction clicks generalizing init with
  | nil => simpa using h0
  | cons c cs ih =>
    simp only [List.foldl_cons]
    exact ih c (h c (by simp)) (fun x hx => h x (by simp [hx]))

/-- Claim C8: the UI language starts at `en`, every reachable UI language
value is `en` or `tr` (the only values `LanguageToggle` ever sets), the
agent state's `lang` is initialized to `en`, and after the sync effect the
agent state's `lang` equals the UI language. -/
theorem c8_languageInvariant (clicks : List String) (st : AgentState)
    (h : ∀ c ∈ clicks, c ∈ languageToggleTargets) :
    uiInitialLanguage = "en" ∧
    uiLanguageAfter clicks ∈ languageToggleTargets ∧
    initialAgentState.lang = "en" ∧
    (syncLang st (uiLanguageAfter clicks)).lang = uiLanguageAfter clicks := by
  refine ⟨rfl, ?_, rfl, ?_⟩
  · exact foldlReplaceMem _ clicks uiInitialLanguage (by decide) h
  · unfold syncLang
    split
    · rfl
    · next heq => simpa using heq

/-- Claim C8, witness: a concrete click sequence. -/
theorem c8_languageInvariant_witness :
    (∀ c ∈ ["tr"], c ∈ languageToggleTargets) ∧
    (uiInitialLanguage = "en" ∧
      uiLanguageAfter ["tr"] ∈ languageToggleTargets ∧
      initialAgentState.lang = "en" ∧
      (syncLang initialAgentState (uiLanguageAfter ["tr"])).lang =
        uiLanguageAfter ["tr"]) :=
  ⟨by decide, c8_languageInvariant ["tr"] initialAgentState (by decide)⟩

/-- Claim C3: a previously approved exact-cache record (including one just
persisted via `/feedback` with `approved = true`) makes resolution
terminate at the exact tier with the stored recipe, with no provider calls
(in particular no generation), and repeating the request returns the same
recipe whatever the providers would have answered. -/
theorem c3_exactCacheShortCircuit (store store₀ : RecipeStore)
    (ings : List String) (d : Difficulty) (l : Lang) (r r₀ : Recipe)
    (env env' : ProviderEnv)
    (h : exactLookup store (canonicalKey ings d l) = some r) :
    resolveRequest store ings d l env =
      { recipe := some r, tier := .exactTier, calls := [] } ∧
    resolveRequest store ings d l env = resolveRequest store ings d l env' ∧
    resolveRequest (feedbackUpdate store₀ ings d l true r₀) ings d l env =
      { recipe := some r₀, tier := .exactTier, calls := [] } := by
  have hfb : exactLookup (feedbackUpdate store₀ ings d l true r₀)
      (canonicalKey ings d l) = some r₀ := by
    simp [feedbackUpdate, exactLookup, List.find?_cons_of_pos]
  refine ⟨?_, ?_, ?_⟩
  · simp [resolveRequest, h]
  · simp [resolveRequest, h]
  · simp [resolveRequest, hfb]

/-- Claim C3, witness: a store holding one record just approved through
the feedback update. -/
theorem c3_exactCacheShortCircuit_witness :
    exactLookup c3Store (canonicalKey ["Egg", "cheese", "salt"] .easy .en) =
      some witnessRecipe ∧
    (resolveRequest c3Store ["Egg", "cheese", "salt"] .easy .en busyEnv =
      { recipe := some witnessRecipe, tier := .exactTier, calls := [] } ∧
    resolveRequest c3Store ["Egg", "cheese", "salt"] .easy .en busyEnv =
      resolveRequest c3Store ["Egg", "cheese", "salt"] .easy .en quietEnv ∧
    resolveRequest (feedbackUpdate [] ["Egg", "cheese", "salt"] .easy .en true
        witnessRecipe) ["Egg", "cheese", "salt"] .easy .en busyEnv =
      { recipe := some witnessRecipe, tier := .exactTier, calls := [] }) :=
  ⟨by decide,
    c3_exactCacheShortCircuit c3Store [] ["Egg", "cheese", "salt"] .easy .en
      witnessRecipe witnessRecipe busyEnv quietEnv (by decide)⟩

/-- Claim C4: whenever `ReviewGate` classifies a candidate recipe as
`valid`, every ingredient of the candidate is in the session's working
set, a default pantry item, or a previously-approved extra. -/
theorem c4_validRecipeIngredients (cand : Recipe)
    (working approvedExtras : List String) (consistent : Bool)
    (suggestion : Option (List String)) (i : String)
    (h : reviewGate cand working approvedExtras consistent suggestion = .valid)
    (hi : i ∈ cand.ingredients) :
    i ∈ working ∨ i ∈ defaultPantry ∨ i ∈ approvedExtras := by
  unfold reviewGate at h
  by_cases hall : (hallucinationFree cand working approvedExtras && consistent) = true
  · have hf := ((Bool.and_eq_true _ _).mp hall).1
    unfold hallucinationFree at hf
    have hmem := List.all_eq_true.mp hf i hi
    simp only [Bool.or_eq_true] at hmem
    rcases hmem with (hm | hm) | hm
    · exact Or.inl (List.elem_iff.mp hm)
    · exact Or.inr (Or.inl (List.elem_iff.mp hm))
    · exact Or.inr (Or.inr (List.elem_iff.mp hm))
  · rw [if_neg (by simpa using hall)] at h
    cases suggestion <;> simp at h

/-- Claim C4, witness: a concrete valid review. -/
theorem c4_validRecipeIngredients_witness :
    reviewGate witnessRecipe ["egg"] ["cheese"] true none = .valid ∧
    "salt" ∈ witnessRecipe.ingredients ∧
    ("salt" ∈ ["egg"] ∨ "salt" ∈ defaultPantry ∨ "salt" ∈ ["cheese"]) :=
  ⟨by decide, by decide,
    c4_validRecipeIngredients witnessRecipe ["egg"] ["cheese"] true none
      "salt" (by decide) (by decide)⟩

/-- Claim C5: an all-default-pantry input such as
`["salt", "water", "olive oil"]` fails validation with `422` for every
difficulty and language, and validation fails exactly when fewer than 3
raw ingredients are supplied, fewer than 1 non-default ingredient remains
after filtering, the difficulty is unrecognized, or some ingredient fails
the character-safety check. -/
theorem c5_validationFailure (d : String) (l : Lang) (raw : List String) :
    generateStatus ["salt", "water", "olive oil"] d l = 422 ∧
    (validationFails raw d l = true ↔
      (raw.length < 3 ∨ (nonDefaultIngredients raw).length < 1 ∨
        d ∉ recognizedDifficulties ∨
        ∃ i ∈ raw, charSafe l i = false)) := by
  constructor
  · unfold generateStatus validateIngredients
    cases l <;> by_cases hd : d ∈ recognizedDifficulties <;>
      simp [hd] <;> decide
  · unfold validationFails validateIngredients
    by_cases h1 : raw.length < 3
    · simp [h1]
    · by_cases h2 : raw.all (charSafe l) = true
      · by_cases h3 : d ∈ recognizedDifficulties
        · by_cases h4 : (nonDefaultIngredients raw).length < 1
          · simp [h1, h2, h3, h4]
          · have hnex : ¬ ∃ i ∈ raw, charSafe l i = false := by
              push_neg
              intro i hi
              simp [List.all_eq_true.mp h2 i hi]
            simp [h1, h2, h3, h4, hnex]
        · simp [h1, h2, h3]
      · have h2' : ∃ i ∈ raw, charSafe l i = false := by
          by_contra hall
          push_neg at hall
          apply h2
          rw [List.all_eq_true]
          intro i hi
          have hne := hall i hi
          simpa using hne
        simp [h1, h2, h2']

/-- Helper: a session step never removes anything from the cumulative
proposal list. -/
theorem stepFn_extraProposed_mono (s s' : Session) (e : Event)
    (h : stepFn s e = some s') :
    ∀ x ∈ s.extraProposed, x ∈ s'.extraProposed := by
  intro x hx
  unfold stepFn at h
  split at h <;> (try split at h) <;>
    first
      | (cases h; simp_all [List.mem_append])
      | exact absurd h (by simp)

/-- Helper: a run of session steps never removes anything from the
cumulative proposal list. -/
theorem runEvents_extraProposed_mono (es : List Event) :
    ∀ s s' : Session, runEvents s es = some s' →
      ∀ x ∈ s.extraProposed, x ∈ s'.extraProposed := by
  induction es with
  | nil =>
    intro s s' h x hx
    simp only [runEvents, Option.some.injEq] at h
    subst h; exact hx
  | cons e es ih =>
    intro s s' h x hx
    cases hstep : stepFn s e with
    | none => simp [runEvents, hstep] at h
    | some s1 =>
      simp only [runEvents, hstep] at h
      exact ih s1 s' h x (stepFn_extraProposed_mono s s1 e hstep x hx)

/-- Helper: every session step preserves the session invariant. -/
theorem stepFn_preserves_inv (s s' : Session) (e : Event)
    (hinv : sessionInv s) (h : stepFn s e = some s') : sessionInv s' := by
  obtain ⟨hec, hic, hph, hrej⟩ := hinv
  unfold stepFn at h
  split at h
  case h_1 => cases h; exact ⟨hec, hic, trivial, hrej⟩
  case h_2 => cases h; exact ⟨hec, hic, trivial, hrej⟩
  case h_3 => cases h; exact ⟨hec, hic, trivial, hrej⟩
  case h_4 => cases h; exact ⟨hec, hic, trivial, hrej⟩
  case h_5 => cases h; exact ⟨hec, hic, trivial, hrej⟩
  case h_6 => cases h; exact ⟨hec, hic, trivial, hrej⟩
  case h_7 => cases h; exact ⟨hec, hic, trivial, hrej⟩
  case h_8 => cases h; exact ⟨hec, hic, trivial, hrej⟩
  case h_9 => cases h; exact ⟨hec, hic, trivial, hrej⟩
  case h_10 =>
    -- reviewing, reviewFixable: guarded emission
    split at h
    · cases h
      next cand p _ hguard =>
        obtain ⟨hp1, hp2, hp3, hp4, hp5, hp6⟩ := hguard
        refine ⟨hec, hic, ⟨hp1, hp4, hp3, ?_⟩, ?_⟩
        · exact fun x hxp => List.mem_append_right _ hxp
        · intro c hc
          obtain ⟨hcne, hcm⟩ := hrej c hc
          exact ⟨hcne, fun x hxc => List.mem_append_left _ (hcm x hxc)⟩
    · exact absurd h (by simp)
  case h_11 => cases h; exact ⟨hec, hic, trivial, hrej⟩
  case h_12 =>
    -- awaitingApproval, approveExtras
    cases h
    next cand p heq =>
      rw [heq] at hph
      obtain ⟨hp1, hp2, hp3, hp4⟩ := hph
      exact ⟨hp2, by show s.iterationCount + 1 ≤ 3; omega, trivial, hrej⟩
  case h_13 =>
    -- awaitingApproval, rejectExtras
    next cand p heq =>
      rw [heq] at hph
      obtain ⟨hp1, hp2, hp3, hp4⟩ := hph
      split at h <;> cases h <;>
        refine ⟨hec, by show s.iterationCount + 1 ≤ 3; omega, trivial, ?_⟩ <;>
        · intro c hc
          rcases List.mem_cons.mp hc with hcp | hcs
          · subst hcp
            exact ⟨by
              intro hnil
              rw [hnil] at hp1
              simp at hp1, hp4⟩
          · exact hrej c hcs
  case h_14 => exact absurd h (by simp)

/-- Helper: the initial session satisfies the invariant. -/
theorem initSession_inv (orig : List String) (d : Difficulty) (l : Lang) :
    sessionInv (initSession orig d l) := by
  simp [sessionInv, initSession]

/-- Helper: running events preserves the session invariant. -/
theorem runEvents_preserves_inv (es : List Event) :
    ∀ s s' : Session, sessionInv s → runEvents s es = some s' →
      sessionInv s' := by
  induction es with
  | nil =>
    intro s s' hinv h
    simp only [runEvents, Option.some.injEq] at h
    subst h; exact hinv
  | cons e es ih =>
    intro s s' hinv h
    cases hstep : stepFn s e with
    | none => simp [runEvents, hstep] at h
    | some s1 =>
      simp only [runEvents, hstep] at h
      exact ih s1 s' (stepFn_preserves_inv s s1 e hinv hstep) h

/-- Helper: along any run from a state satisfying the invariant, the
emitted combinations are pairwise distinct, non-empty, fresh with respect
to the starting proposal list, and recorded in the final proposal list. -/
theorem emittedAlong_fresh (es : List Event) :
    ∀ s s' : Session, sessionInv s → runEvents s es = some s' →
      (emittedAlong s es).Nodup ∧
      ∀ c ∈ emittedAlong s es, c ≠ [] ∧
        (∀ x ∈ c, x ∉ s.extraProposed) ∧ (∀ x ∈ c, x ∈ s'.extraProposed) := by
  induction es with
  | nil =>
    intro s s' hinv h
    simp [emittedAlong]
  | cons e es ih =>
    intro s s' hinv h
    cases hstep : stepFn s e with
    | none => simp [runEvents, hstep] at h
    | some s1 =>
      simp only [runEvents, hstep] at h
      have hinv1 := stepFn_preserves_inv s s1 e hinv hstep
      obtain ⟨ihnd, ihmem⟩ := ih s1 s' hinv1 h
      cases e
      case reviewFixable p =>
        have hstep' := hstep
        unfold stepFn at hstep'
        cases hphase : s.phase <;> simp only [hphase] at hstep' <;>
          first
            | exact Option.noConfusion hstep'
            | skip
        rename_i cand
        by_cases hg : fixableOk s p
        case neg =>
          rw [if_neg hg] at hstep'
          exact Option.noConfusion hstep' 
        case pos =>
          rw [if_pos hg] at hstep'
          obtain ⟨hp1, hp2, hp3, hp4, hp5, hp6⟩ := hg
          simp only [Option.some.injEq] at hstep'
          have hemit : emittedAlong s (Event.reviewFixable p :: es) =
              p :: emittedAlong s1 es := by
            simp [emittedAlong, hstep]
          rw [hemit]
          have hpne : p ≠ [] := by
            intro hnil; rw [hnil] at hp1; simp at hp1
          have hs1ep : s1.extraProposed = s.extraProposed ++ p := by
            rw [← hstep']
          constructor
          · refine List.Nodup.cons ?_ ihnd
            intro hmem
            obtain ⟨x, hx⟩ := List.exists_mem_of_ne_nil p hpne
            exact (ihmem p hmem).2.1 x hx
              (by rw [hs1ep]; exact List.mem_append_right _ hx)
          · intro c hc
            rcases List.mem_cons.mp hc with hcp | hcs
            · subst hcp
              refine ⟨hpne, hp6, ?_⟩
              intro x hx
              exact runEvents_extraProposed_mono es s1 s' h x
                (by rw [hs1ep]; exact List.mem_append_right _ hx)
            · obtain ⟨hc1, hc2, hc3⟩ := ihmem c hcs
              refine ⟨hc1, ?_, hc3⟩
              intro x hx hxs
              exact hc2 x hx
                (stepFn_extraProposed_mono s s1 _ hstep x hxs)
      all_goals
        simp only [emittedAlong, hstep, List.nil_append]
        refine ⟨ihnd, ?_⟩
        intro c hc
        obtain ⟨hc1, hc2, hc3⟩ := ihmem c hc
        refine ⟨hc1, ?_, hc3⟩
        intro x hx hxs
        exact hc2 x hx (stepFn_extraProposed_mono s s1 _ hstep x hxs)

/-- Claim C1: along every run of the resolution state machine from an
initial session, the observed state satisfies `extra_count ≤ 2` and
`iteration_count ≤ 3` (both counters are naturals, hence also `≥ 0`), and
any further transition preserves both bounds. -/
theorem c1_budgetBounds (orig : List String) (d : Difficulty) (l : Lang)
    (evs : List Event) (s : Session) (e : Event) (s' : Session)
    (h : runEvents (initSession orig d l) evs = some s)
    (h2 : stepFn s e = some s') :
    (s.extraCount ≤ 2 ∧ s.iterationCount ≤ 3) ∧
    (s'.extraCount ≤ 2 ∧ s'.iterationCount ≤ 3) := by
  have hinv := runEvents_preserves_inv evs _ s (initSession_inv orig d l) h
  have hinv' := stepFn_preserves_inv s s' e hinv h2
  exact ⟨⟨hinv.1, hinv.2.1⟩, ⟨hinv'.1, hinv'.2.1⟩⟩

/-- Claim C1, witness: a concrete run and a concrete transition. -/
theorem c1_budgetBounds_witness :
    runEvents (initSession ["egg", "cheese", "spinach"] .easy .en) c1Events =
      some c1State ∧
    stepFn c1State Event.cacheMiss = some c1StateNext ∧
    ((c1State.extraCount ≤ 2 ∧ c1State.iterationCount ≤ 3) ∧
      (c1StateNext.extraCount ≤ 2 ∧ c1StateNext.iterationCount ≤ 3)) :=
  ⟨by decide, by decide,
    c1_budgetBounds ["egg", "cheese", "spinach"] .easy .en c1Events c1State
      Event.cacheMiss c1StateNext (by decide) (by decide)⟩

/-- Claim C2: in every reachable session state, a suggestion the review
stage can emit is not in `rejected_combinations` at that moment, is
distinct from every combination emitted earlier in the session, and the
suggestions emitted along the run are pairwise distinct (set
non-repetition). -/
theorem c2_noRepeatedCombination (orig : List String) (d : Difficulty)
    (l : Lang) (evs : List Event) (s : Session) (p : List String)
    (h : runEvents (initSession orig d l) evs = some s)
    (h2 : (stepFn s (Event.reviewFixable p)).isSome = true) :
    p ∉ s.rejected ∧ p ∉ emittedAlong (initSession orig d l) evs ∧
      (emittedAlong (initSession orig d l) evs).Nodup := by
  have hguard : fixableOk s p := by
    cases hst : stepFn s (Event.reviewFixable p) with
    | none => rw [hst] at h2; simp at h2
    | some s1 =>
      unfold stepFn at hst
      cases hphase : s.phase <;> simp only [hphase] at hst <;>
        first
          | exact Option.noConfusion hst
          | skip
      by_cases hg : fixableOk s p
      · exact hg
      · rw [if_neg hg] at hst
        exact Option.noConfusion hst
  obtain ⟨hp1, hp2, hp3, hp4, hp5, hp6⟩ := hguard
  have hfresh := emittedAlong_fresh evs (initSession orig d l) s
    (initSession_inv orig d l) h
  refine ⟨hp5, ?_, hfresh.1⟩
  intro hmem
  obtain ⟨hne, _, hfin⟩ := hfresh.2 p hmem
  obtain ⟨x, hx⟩ := List.exists_mem_of_ne_nil p hne
  exact hp6 x hx (hfin x hx)

/-- Claim C2, witness: a concrete run reaching the review stage with an
emittable suggestion. -/
theorem c2_noRepeatedCombination_witness :
    runEvents (initSession ["egg"] .easy .en) c2Events = some c2State ∧
    (stepFn c2State (Event.reviewFixable ["milk"])).isSome = true ∧
    (["milk"] ∉ c2State.rejected ∧
      ["milk"] ∉ emittedAlong (initSession ["egg"] .easy .en) c2Events ∧
      (emittedAlong (initSession ["egg"] .easy .en) c2Events).Nodup) :=
  ⟨by decide, by decide,
    c2_noRepeatedCombination ["egg"] .easy .en c2Events c2State ["milk"]
      (by decide) (by decide)⟩

/-- Claim C9, counterexample: on the bracketed string `"[a\nb]"` (which
fails both JSON parses and contains a newline), `parseList` returns the
one-element list containing the whole string, not the newline split the
claim's branch order prescribes. -/
theorem c9_parseList_counterexample :
    parseList (JSVal.str bracketNewlineInput) = [bracketNewlineInput] ∧
    parseListClaimed (JSVal.str bracketNewlineInput) = ["[a", "b]"] ∧
    parseList (JSVal.str bracketNewlineInput) ≠
      parseListClaimed (JSVal.str bracketNewlineInput) := by
  refine ⟨by decide, by decide, by decide⟩

/-- Claim C9 as amended: `parseList` is total and behaves as described
except that a bracketed string that fails to re-parse is returned whole —
never newline-split; only non-bracketed strings containing a newline are
split. -/
theorem c9_parseList_amended (v : JSVal) :
    parseList v = parseListDescribed v := by
  cases v with
  | arr l => rfl
  | str s =>
    simp only [parseList, parseListDescribed]
    split
    · rfl
    · split
      · split
        · rfl
        · simp [jsToString]
      · split
        · simp [List.map_map, Function.comp, jsToString]
        · simp [jsToString]
  | num lexeme => rfl
  | bool b => rfl
  | null => rfl
  | obj fields => rfl

/-- Helper: a translation lookup succeeds exactly when the path is among
the table's key paths. -/
theorem lookupTranslation_isSome_iff (t : List (List String × String))
    (path : List String) :
    (lookupTranslation t path).isSome = true ↔ path ∈ translationKeys t := by
  unfold lookupTranslation translationKeys
  rcases hf : t.find? (fun e => decide (e.1 = path)) with _ | e
  · simp only [hf, Option.map_none', Option.isSome_none,
      Bool.false_eq_true, false_iff]
    intro hm
    obtain ⟨e, he, hfst⟩ := List.mem_map.mp hm
    have : (t.find? (fun e => decide (e.1 = path))).isSome = true :=
      List.find?_isSome.mpr ⟨e, he, by simp [hfst]⟩
    rw [hf] at this
    simp at this
  · simp only [hf, Option.map_some', Option.isSome_some, true_iff]
    have hmem := List.mem_of_find?_eq_some hf
    have hpe := List.find?_some hf
    simp only [decide_eq_true_eq] at hpe
    exact List.mem_map.mpr ⟨e, hmem, hpe⟩

/-- Claim C10: the English and Turkish translation tables have exactly the
same nested key structure, every leaf is a non-empty string, a lookup is
defined in English exactly when it is defined in Turkish, and every
lookup the UI components perform is defined in both languages. -/
theorem c10_translationsParallel :
    translationKeys translationsEn = translationKeys translationsTr ∧
    translationsEn.all (fun e => !(e.2 == "")) = true ∧
    translationsTr.all (fun e => !(e.2 == "")) = true ∧
    (∀ path : List String, (lookupTranslation translationsEn path).isSome = true ↔
      (lookupTranslation translationsTr path).isSome = true) ∧
    uiTranslationPaths.all (fun p =>
      (lookupTranslation translationsEn p).isSome &&
        (lookupTranslation translationsTr p).isSome) = true := by
  have hkeys : translationKeys translationsEn = translationKeys translationsTr := by
    decide
  refine ⟨hkeys, by decide, by decide, ?_, by decide⟩
  intro path
  rw [lookupTranslation_isSome_iff, lookupTranslation_isSome_iff, hkeys]

end Chestia
